import Mathlib

/-!
Verification of the Alxa NDVI raster pipeline.

We shallowly embed the quantization encoder (`scripts/process_ndvi.py`) and
the query service (`backend/app/services/ndvi_service.py`) and settle the
specification's claims about them.

Conventions of the embedding:
* Python floats are modelled by `Flt`: either NaN or an exact rational.
  All raster values appearing in the programs are small decimals, so the
  rational model is faithful for them.
* `numpy`'s `astype(np.uint8)` is a C-style cast: truncation toward zero
  followed by wrap-around modulo 256 (`uint8cast`).
* Filesystem state, raster pixel grids and read errors are passed
  explicitly as data.
-/

namespace Alxa

/-- A floating-point value: NaN or an exact rational number. -/
inductive Flt where
  | nan : Flt
  | val (q : ℚ) : Flt
deriving DecidableEq

/-- `np.isnan` on a modelled float. -/
def Flt.isNan : Flt → Bool
  | .nan => true
  | .val _ => false

/-- IEEE `==` comparison: NaN compares unequal to everything, including itself. -/
def feq : Flt → Flt → Bool
  | .val a, .val b => decide (a = b)
  | _, _ => false

/-- `numpy` `astype(np.uint8)` applied to a float: C cast, i.e. truncation
toward zero and reduction modulo 256. -/
def uint8cast (q : ℚ) : ℕ := ((if 0 ≤ q then ⌊q⌋ else ⌈q⌉) % 256).toNat

/-- One pixel of the encoder's quantization, from
`process_tiff_to_web_tiles` (src/scripts/process_ndvi.py lines 100-111):
`np.where((data >= -1) & (data <= 1) & (~np.isnan(data)),
          ((data + 1) / 2 * 255).astype(np.uint8), 0)`. -/
def quantizePixel : Flt → ℕ
  | .nan => 0
  | .val q => if -1 ≤ q ∧ q ≤ 1 then uint8cast ((q + 1) / 2 * 255) else 0

/-- The extractor's dequantization of a stored byte, from
`extract_point_value` (src/backend/app/services/ndvi_service.py line 113):
`ndvi_value = raw_value / 255.0 * 2.0 - 1.0`. -/
def dequantByte (b : ℕ) : ℚ := (b : ℚ) / 255 * 2 - 1

/-- `Flt` to rational, when the value is a number. -/
def Flt.toVal? : Flt → Option ℚ
  | .nan => none
  | .val q => some q

/-- The extractor's dequantization lifted to floats:
`raw_value / 255.0 * 2.0 - 1.0` (NaN propagates). -/
def fltDequant : Flt → Flt
  | .nan => .nan
  | .val r => .val (r / 255 * 2 - 1)

/-- Line 105 of ndvi_service.py:
`nodata is not None and not np.isnan(nodata) and raw_value == float(nodata)`. -/
def matchesNodata (nodata : Option Flt) (raw : Flt) : Bool :=
  match nodata with
  | some nd => !nd.isNan && feq raw nd
  | none => false

/-- Line 111 of ndvi_service.py:
`(nodata is None and raw_value == 0.0) or
 (nodata is not None and raw_value == float(nodata))`. -/
def intSentinel (nodata : Option Flt) (raw : Flt) : Bool :=
  match nodata with
  | none => feq raw (Flt.val 0)
  | some nd => feq raw nd

/-- Line 117 of ndvi_service.py:
`np.isnan(ndvi_value) or ndvi_value < -1.0 or ndvi_value > 1.0`. -/
def outOfRange : Flt → Bool
  | .nan => true
  | .val v => decide (v < -1) || decide (1 < v)

/-- The data determining one call of `extract_point_value`
(src/backend/app/services/ndvi_service.py lines 75-123): path/file
existence, whether any exception is raised during open or read, the
row/column obtained from `dataset.index` after the CRS transform, the
raster shape, the declared nodata value, the band dtype kind, and the
masked 1×1 window read at the pixel. -/
structure ExtractQuery where
  pathNonempty : Bool
  fileExists : Bool
  readError : Bool
  row : ℤ
  col : ℤ
  height : ℤ
  width : ℤ
  nodata : Option Flt
  dtypeInt : Bool
  masked : Bool
  raw : Flt
deriving DecidableEq

/-- `NDVIService.extract_point_value`
(src/backend/app/services/ndvi_service.py lines 75-123). The whole body
runs inside `try/except Exception: return None`, modelled by the
`readError` flag; all other branches follow the source line by line. -/
def extract_point_value (q : ExtractQuery) : Option ℚ :=
  if q.readError then none
  else if !q.pathNonempty || !q.fileExists then none
  else if 0 ≤ q.row ∧ q.row < q.height ∧ 0 ≤ q.col ∧ q.col < q.width then
    if q.masked then none
    else if matchesNodata q.nodata q.raw then none
    else if q.dtypeInt then
      if intSentinel q.nodata q.raw then none
      else
        let ndvi := fltDequant q.raw
        if outOfRange ndvi then none else ndvi.toVal?
    else
      if outOfRange q.raw then none else q.raw.toVal?
  else none

/-- The value the extractor's dequantization step produces for a query's
pixel before the final range check (integer dtype: `raw/255*2-1`; float
dtype: the raw value itself). -/
def dequantized (q : ExtractQuery) : Flt :=
  if q.dtypeInt then fltDequant q.raw else q.raw

/-- numpy `a[::step]`: every `step`-th element starting at index 0. -/
def strideTake (step : ℕ) (l : List α) : List α :=
  (l.enum.filter (fun p => p.1 % step == 0)).map Prod.snd

/-- numpy `a[::step, ::step]` on a row-major grid. -/
def strideGrid (step : ℕ) (g : List (List α)) : List (List α) :=
  (strideTake step g).map (strideTake step)

/-- `min` over a nonempty list (Python `min(values)`); 0 on the empty list,
which no caller reaches. -/
def listMin : List ℚ → ℚ
  | [] => 0
  | x :: xs => xs.foldl min x

/-- `max` over a nonempty list (Python `max(values)`). -/
def listMax : List ℚ → ℚ
  | [] => 0
  | x :: xs => xs.foldl max x

/-- `np.mean` / `sum(values) / len(values)`. -/
def listMean (l : List ℚ) : ℚ := l.sum / l.length

/-- The square of `np.std` (population variance). The standard deviation
itself is irrational in general, so the record stores its square. -/
def listVar (l : List ℚ) : ℚ := (l.map (fun x => (x - listMean l) ^ 2)).sum / l.length

/-- The statistics dict returned by `get_map_statistics` on success
(`std` represented by its square, see `listVar`). -/
structure SamplerStats where
  vmin : ℚ
  vmax : ℚ
  mean : ℚ
  variance : ℚ
  count : ℕ
  sampled : Bool
  sample_step : ℕ
deriving DecidableEq

/-- The data determining one call of `get_map_statistics`
(src/backend/app/services/ndvi_service.py lines 168-216): file existence,
read errors, the raster shape, the band dtype kind, and the full masked
band as (mask, value) pixels in row-major order. -/
structure SamplerInput where
  fileExists : Bool
  readError : Bool
  height : ℕ
  width : ℕ
  dtypeInt : Bool
  grid : List (List (Bool × Flt))
deriving DecidableEq

/-- `NDVIService.get_map_statistics`
(src/backend/app/services/ndvi_service.py lines 168-216). `{}` is `none`.
The band is read with `masked=True`, so `hasattr(sample_data, "mask")`
is true and the integer branch takes `mask_valid = ~sample_data.mask`,
`mapped = sample_data.filled(0)` then `mapped / 255.0 * 2.0 - 1.0` and
selects `mapped[mask_valid]`; a NaN cannot occur in an integer band, so
dropping it via `Flt.toVal?` is unreachable there. The float branch
fills masked pixels with NaN and keeps values in `[-1, 1]` that are not
NaN. -/
def get_map_statistics (s : SamplerInput) : Option SamplerStats :=
  if !s.fileExists then none
  else if s.readError then none
  else
    let step := max 1 (min s.height s.width / 1000)
    let sample := strideGrid step s.grid
    let flat := sample.flatten
    let validData : List ℚ :=
      if s.dtypeInt then
        let mapped := flat.map (fun p => (p.1, fltDequant (if p.1 then Flt.val 0 else p.2)))
        (mapped.filter (fun p => !p.1)).filterMap (fun p => p.2.toVal?)
      else
        flat.filterMap (fun p =>
          match (if p.1 then Flt.nan else p.2) with
          | Flt.nan => none
          | Flt.val v => if -1 ≤ v ∧ v ≤ 1 then some v else none)
    if validData = [] then none
    else some ⟨listMin validData, listMax validData, listMean validData,
               listVar validData, validData.length, true, step⟩

/-- A filename token, as seen by Python's `int()`: `some n` is a token
that parses as the integer `n`, `none` one on which `int()` raises
`ValueError`. Directory and file names are modelled pre-split on `'_'`:
Python's `name.split('_')` is a bijection onto nonempty lists of
`'_'`-free tokens, and `'_' in name` holds iff the token list has at
least two elements. Tokens with the same parse value are identified, so
two distinct directory names that parse to the same (year, month) —
e.g. `2020_1` and `2020_01` — coincide in the model; no claim under
study depends on that corner. -/
abbrev Tok := Option ℤ

/-- A catalog file path: the empty string `""` used for metadata-only
entries, or `<processed_root>/<year>_<month>/processed.tif`. -/
inductive RPath where
  | empty : RPath
  | tif (year month : ℤ) : RPath
deriving DecidableEq

/-- One entry of the processed-data directory as seen by the catalog scan:
directory name (pre-split on `'_'`), whether it is a directory, and
which artifacts it holds. -/
structure DirEnt where
  parts : List Tok
  isDir : Bool
  hasTif : Bool
  hasMeta : Bool
deriving DecidableEq

/-- The filesystem state one call of `get_available_files` observes. -/
structure FileSys where
  rootExists : Bool
  dirs : List DirEnt
deriving DecidableEq

/-- A catalog entry `(year, month, filepath)`. -/
abbrev Entry := ℤ × ℤ × RPath

/-- The per-directory body of the scan loop in `get_available_files`
(src/backend/app/services/ndvi_service.py lines 51-69). `none` models
`continue` — including the `except ValueError` cases from tuple
unpacking (`'_' in name` but not exactly two tokens) and from `int()`
(a `none` token). -/
def scanDir (d : DirEnt) : Option Entry :=
  if d.isDir && decide (2 ≤ d.parts.length) then
    match d.parts with
    | [ty, tm] =>
      match ty, tm with
      | some y, some m =>
        if d.hasTif then some (y, m, RPath.tif y m)
        else if d.hasMeta then some (y, m, RPath.empty)
        else none
      | _, _ => none
    | _ => none
  else none

/-- Python string order on modelled paths: `""` sorts before every
nonempty path, and `processed.tif` paths differing in their directory
name are only ever compared when their (year, month) keys tie, where the
model identifies them. -/
def rpLe (a b : RPath) : Bool :=
  match a, b with
  | .empty, _ => true
  | .tif _ _, .empty => false
  | .tif y1 m1, .tif y2 m2 =>
    decide (y1 < y2) || (decide (y1 = y2) && decide (m1 ≤ m2))

/-- Lexicographic order on `(year, month, path)` triples, as Python's
tuple comparison in `sorted(files)`. -/
def entLe (a b : Entry) : Bool :=
  decide (a.1 < b.1) ||
    (decide (a.1 = b.1) &&
      (decide (a.2.1 < b.2.1) ||
        (decide (a.2.1 = b.2.1) && rpLe a.2.2 b.2.2)))

/-- Insertion into a sorted entry list. -/
def insertEnt (a : Entry) : List Entry → List Entry
  | [] => [a]
  | b :: bs => if entLe a b then a :: b :: bs else b :: insertEnt a bs

/-- `sorted(files)`: stable sort by the lexicographic triple order. -/
def sortEnts (l : List Entry) : List Entry := l.foldr insertEnt []

/-- `NDVIService.get_available_files`
(src/backend/app/services/ndvi_service.py lines 35-73) as a function of
the cache state `self._file_cache` and the filesystem it observes;
returns the result together with the new cache state. When the processed
root does not exist the early `return files` leaves `_file_cache` at
`None`. -/
def get_available_files (cache : Option (List Entry)) (fs : FileSys) :
    List Entry × Option (List Entry) :=
  match cache with
  | some c => (c, some c)
  | none =>
    if !fs.rootExists then ([], none)
    else
      let files := fs.dirs.filterMap scanDir
      let sortedFiles := sortEnts files
      (sortedFiles, some sortedFiles)

/-- One emitted observation of `get_time_series`; the constant-per-query
`date`/`latitude`/`longitude` fields are omitted. -/
structure DataPoint where
  year : ℤ
  month : ℤ
  ndvi_value : ℚ
deriving DecidableEq

/-- The statistics dict of `_calculate_statistics` on a nonempty input. -/
structure TsStats where
  vmin : ℚ
  vmax : ℚ
  mean : ℚ
  count : ℕ
deriving DecidableEq

/-- `NDVIService._calculate_statistics`
(src/backend/app/services/ndvi_service.py lines 218-230); `{}` is `none`. -/
def calculate_statistics (pts : List DataPoint) : Option TsStats :=
  match pts with
  | [] => none
  | _ =>
    let values := pts.map (fun dp => dp.ndvi_value)
    some ⟨listMin values, listMax values, listMean values, values.length⟩

/-- `NDVIService.get_time_series`
(src/backend/app/services/ndvi_service.py lines 132-166) for a fixed
query coordinate: the catalog listing `files`, the point extraction as a
function `ext` of the entry's file path, and the inclusive year range.
Returns the data points and the statistics record. -/
def get_time_series (files : List Entry) (ext : RPath → Option ℚ) (sy ey : ℤ) :
    List DataPoint × Option TsStats :=
  let filtered := files.filter (fun e => decide (sy ≤ e.1) && decide (e.1 ≤ ey))
  let pts := filtered.filterMap (fun e => (ext e.2.2).map (fun v => DataPoint.mk e.1 e.2.1 v))
  (pts, calculate_statistics pts)

/-- A raster's bounds rectangle (`dataset.bounds`). -/
structure RBounds where
  left : ℚ
  bottom : ℚ
  right : ℚ
  top : ℚ
deriving DecidableEq

/-- Required region west edge: 103.0°E. -/
def requiredWest : ℚ := 103
/-- Required region south edge: 37.5°N. -/
def requiredSouth : ℚ := 75 / 2
/-- Required region east edge: 105.2°E. -/
def requiredEast : ℚ := 526 / 5
/-- Required region north edge: 39.0°N. -/
def requiredNorth : ℚ := 39

/-- `validate_geographic_bounds` (src/scripts/process_ndvi.py lines 41-57). -/
def validate_geographic_bounds (b : RBounds) : Bool :=
  decide (b.left < requiredEast) && decide (b.right > requiredWest) &&
  decide (b.bottom < requiredNorth) && decide (b.top > requiredSouth)

/-- `valid_data = data[(data >= -1) & (data <= 1) & (~np.isnan(data))]`
flattened row-major (src/scripts/process_ndvi.py line 82). -/
def validPixels (g : List (List Flt)) : List ℚ :=
  g.flatten.filterMap (fun p =>
    match p with
    | Flt.nan => none
    | Flt.val v => if -1 ≤ v ∧ v ≤ 1 then some v else none)

/-- The stats dict of `process_tiff_to_web_tiles`
(src/scripts/process_ndvi.py lines 83-93); `std` by its square,
the `crs` string is omitted. -/
structure EncodeStats where
  vmin : Option ℚ
  vmax : Option ℚ
  mean : Option ℚ
  variance : Option ℚ
  count : ℕ
  bounds : RBounds
  width : ℕ
  height : ℕ
deriving DecidableEq

/-- The data determining one call of `process_tiff_to_web_tiles`: whether
opening/reading the source raster raises, its bounds, the filename stem,
the band data, and the raster shape. Writes are assumed not to raise (the
claims under study concern the pre-write validations). -/
structure TiffInput where
  openError : Bool
  bounds : RBounds
  stemParts : List Tok
  grid : List (List Flt)
  width : ℕ
  height : ℕ
deriving DecidableEq

/-- The observable outcome of `process_tiff_to_web_tiles`: the returned
`(success, stats)` pair plus which artifacts were written, and the
quantized grid when the raster was written. -/
structure EncodeResult where
  success : Bool
  stats : Option EncodeStats
  metadataWritten : Bool
  rasterWritten : Bool
  quantized : Option (List (List ℕ))
deriving DecidableEq

/-- The failure outcome shared by every rejected or erroring input:
`return False, None` with nothing written. -/
def encodeFail : EncodeResult := ⟨false, none, false, false, none⟩

/-- `process_tiff_to_web_tiles` (src/scripts/process_ndvi.py lines 59-137).
Control flow follows the source: a raised exception anywhere inside the
`with` block is caught and returns `(False, None)`; bounds validation,
then `year_month = input_file.stem.split('_')[2:4]` (an out-of-range
index raises `IndexError`, a non-numeric token makes `int()` raise
`ValueError`, both caught by the outer handler), then the 2015-2024
filter, then metadata and raster writes. The guarded
`if len(valid_data) > 0` quantization equals the pointwise
`quantizePixel` map: when no pixel is valid every pixel quantizes to 0,
which is the `np.full_like(data, 0)` default. `stemParts` is the
filename stem pre-split on `'_'` (see `Tok`); `year_month =
input_file.stem.split('_')[2:4]` is its `[2:4]` slice. -/
def process_tiff_to_web_tiles (inp : TiffInput) : EncodeResult :=
  if inp.openError then encodeFail
  else if !(validate_geographic_bounds inp.bounds) then encodeFail
  else
    match ((inp.stemParts.drop 2).take 2 : List Tok) with
    | [] => encodeFail
    | ytok :: rest =>
      match ytok with
      | none => encodeFail
      | some y =>
        if y < 2015 ∨ 2024 < y then encodeFail
        else
          match rest with
          | [] => encodeFail
          | _ :: _ =>
            let valid := validPixels inp.grid
            let stats : EncodeStats :=
              { vmin := if valid.length > 0 then some (listMin valid) else none
                vmax := if valid.length > 0 then some (listMax valid) else none
                mean := if valid.length > 0 then some (listMean valid) else none
                variance := if valid.length > 0 then some (listVar valid) else none
                count := valid.length
                bounds := inp.bounds
                width := inp.width
                height := inp.height }
            ⟨true, some stats, true, true, some (inp.grid.map (List.map quantizePixel))⟩

/-- Ascending `(year, month)` order on catalog entries. -/
def ymLe (a b : Entry) : Prop := a.1 < b.1 ∨ (a.1 = b.1 ∧ a.2.1 ≤ b.2.1)

/-- Ascending `(year, month)` order on emitted data points. -/
def dpLe (a b : DataPoint) : Prop :=
  a.year < b.year ∨ (a.year = b.year ∧ a.month ≤ b.month)

/-- Year-range filter of `get_time_series`: `start_year <= year <= end_year`. -/
def inRange (sy ey : ℤ) (e : Entry) : Prop := sy ≤ e.1 ∧ e.1 ≤ ey

/- ------------------------------------------------------------------ -/
/- Theorems.                                                           -/
/- ------------------------------------------------------------------ -/

/-- For `-1 ≤ v ≤ 1` the quantization target `(v+1)/2*255` is in `[0, 255]`,
so its floor is an integer in `[0, 255]`. -/
lemma floor_quant_bounds (v : ℚ) (h1 : -1 ≤ v) (h2 : v ≤ 1) :
    0 ≤ ⌊(v + 1) / 2 * 255⌋ ∧ ⌊(v + 1) / 2 * 255⌋ ≤ 255 := by
  constructor
  · apply Int.floor_nonneg.mpr
    nlinarith
  · have h : ((v + 1) / 2 * 255 : ℚ) ≤ 255 := by nlinarith
    have h' : ((⌊(v + 1) / 2 * 255⌋ : ℤ) : ℚ) ≤ 255 :=
      (Int.floor_le ((v + 1) / 2 * 255 : ℚ)).trans h
    exact_mod_cast h'

/-- On valid inputs the C cast reduces to a plain floor. -/
lemma quantize_valid_eq (v : ℚ) (h1 : -1 ≤ v) (h2 : v ≤ 1) :
    quantizePixel (Flt.val v) = (⌊(v + 1) / 2 * 255⌋).toNat := by
  obtain ⟨hlo, hhi⟩ := floor_quant_bounds v h1 h2
  have ht : (0 : ℚ) ≤ (v + 1) / 2 * 255 := by nlinarith
  simp only [quantizePixel, uint8cast, if_pos (And.intro h1 h2), if_pos ht]
  congr 1
  exact Int.emod_eq_of_lt hlo (by omega)

/-- C1, counterexample: at `v = -1256/1275` the encoder truncates
`(v+1)/2*255 = 1.9` to byte 1, and the decoded value differs from `v` by
`3/425 > 1/255`, so the claimed `≤ 1/255` round-trip bound fails even
though the byte is nonzero. -/
theorem C1_roundtrip_counterexample :
    (-1 ≤ (-1256/1275 : ℚ) ∧ (-1256/1275 : ℚ) ≤ 1) ∧
    quantizePixel (Flt.val (-1256/1275)) ≠ 0 ∧
    ¬ (|dequantByte (quantizePixel (Flt.val (-1256/1275))) - (-1256/1275 : ℚ)| ≤ 1 / 255) := by
  have h1 : (-1 : ℚ) ≤ -1256/1275 := by norm_num
  have h2 : (-1256/1275 : ℚ) ≤ 1 := by norm_num
  have hq : quantizePixel (Flt.val (-1256/1275)) = 1 := by
    rw [quantize_valid_eq _ h1 h2]; norm_num
  have hd : dequantByte 1 - (-1256/1275 : ℚ) = -3/425 := by
    norm_num [dequantByte]
  refine ⟨⟨h1, h2⟩, by rw [hq]; norm_num, ?_⟩
  rw [hq, hd, abs_le]
  intro h
  have := h.1
  norm_num at this

/-- C1 (amended): the encoder quantizes by truncation, not rounding, so
the round-trip error bound is `2/255` rather than `1/255`: for every
NDVI value `v ∈ [-1, 1]` whose encoding is a nonzero byte, decoding that
byte with the extractor's mapping `raw/255*2 - 1` recovers `v` to within
strictly less than `2/255`. -/
theorem C1_roundtrip_error_bound (v : ℚ) (h1 : -1 ≤ v) (h2 : v ≤ 1)
    (_hnz : quantizePixel (Flt.val v) ≠ 0) :
    |dequantByte (quantizePixel (Flt.val v)) - v| < 2 / 255 := by
  have hq := quantize_valid_eq v h1 h2
  obtain ⟨hlo, hhi⟩ := floor_quant_bounds v h1 h2
  rw [hq, dequantByte]
  have hcast : ((⌊(v + 1) / 2 * 255⌋.toNat : ℕ) : ℚ) = ((⌊(v + 1) / 2 * 255⌋ : ℤ) : ℚ) := by
    exact_mod_cast Int.toNat_of_nonneg hlo
  rw [hcast]
  have hfl : ((⌊(v + 1) / 2 * 255⌋ : ℤ) : ℚ) ≤ (v + 1) / 2 * 255 := Int.floor_le _
  have hfl2 : (v + 1) / 2 * 255 - 1 < ((⌊(v + 1) / 2 * 255⌋ : ℤ) : ℚ) := Int.sub_one_lt_floor _
  rw [abs_lt]
  constructor <;> nlinarith

/-- Witness for `C1_roundtrip_error_bound` at `v = 1/2`. -/
theorem C1_roundtrip_error_bound_witness :
    (-1 ≤ (1/2 : ℚ) ∧ (1/2 : ℚ) ≤ 1 ∧ quantizePixel (Flt.val (1/2)) ≠ 0) ∧
    |dequantByte (quantizePixel (Flt.val (1/2))) - (1/2 : ℚ)| < 2 / 255 := by
  have hnz : quantizePixel (Flt.val (1/2)) ≠ 0 := by
    rw [quantize_valid_eq _ (by norm_num) (by norm_num)]
    norm_num
  exact ⟨⟨by norm_num, by norm_num, hnz⟩,
    C1_roundtrip_error_bound (1/2) (by norm_num) (by norm_num) hnz⟩

/-- C2, counterexample: `v = -254/255` lies in `(-1, 1]` but
`(v+1)/2*255 = 0.5` truncates to byte 0, so the encoder does produce the
no-data sentinel for a valid input. -/
theorem C2_sentinel_counterexample :
    (-1 < (-254/255 : ℚ) ∧ (-254/255 : ℚ) ≤ 1) ∧
    quantizePixel (Flt.val (-254/255)) = 0 := by
  refine ⟨⟨by norm_num, by norm_num⟩, ?_⟩
  rw [quantize_valid_eq _ (by norm_num) (by norm_num)]
  norm_num

/-- C2 (amended): truncation maps the sub-interval `(-1, -1 + 2/255)` of
valid inputs to byte 0; on the rest, `[-1 + 2/255, 1]`, the encoder
never produces byte 0 and always lands in the code range 1-255, and
every byte in 1-255 is attained by some valid NDVI value. -/
theorem C2_sentinel_reserved :
    (∀ v : ℚ, -1 + 2/255 ≤ v → v ≤ 1 →
      1 ≤ quantizePixel (Flt.val v) ∧ quantizePixel (Flt.val v) ≤ 255) ∧
    (∀ b : ℕ, 1 ≤ b → b ≤ 255 →
      quantizePixel (Flt.val ((2 * b : ℚ) / 255 - 1)) = b) := by
  constructor
  · intro v h1 h2
    have h1' : -1 ≤ v := le_trans (by norm_num) h1
    have hq := quantize_valid_eq v h1' h2
    obtain ⟨hlo, hhi⟩ := floor_quant_bounds v h1' h2
    have hge : (1 : ℤ) ≤ ⌊(v + 1) / 2 * 255⌋ := by
      apply Int.le_floor.mpr
      push_cast
      nlinarith
    rw [hq]
    omega
  · intro b hb1 hb2
    have hc1 : (1 : ℚ) ≤ (b : ℚ) := by exact_mod_cast hb1
    have hc2 : (b : ℚ) ≤ 255 := by exact_mod_cast hb2
    have h1 : -1 ≤ (2 * b : ℚ) / 255 - 1 := by nlinarith
    have h2 : (2 * b : ℚ) / 255 - 1 ≤ 1 := by nlinarith
    rw [quantize_valid_eq _ h1 h2]
    have harg : (((2 * b : ℚ) / 255 - 1) + 1) / 2 * 255 = (b : ℚ) := by
      field_simp
      ring
    rw [harg, Int.floor_natCast]
    simp

/-- Witness for `C2_sentinel_reserved`: `v = 1` on the interval half,
byte 128 on the attainability half. -/
theorem C2_sentinel_reserved_witness :
    (1 ≤ quantizePixel (Flt.val 1) ∧ quantizePixel (Flt.val 1) ≤ 255) ∧
    quantizePixel (Flt.val ((2 * (128 : ℕ) : ℚ) / 255 - 1)) = 128 :=
  ⟨C2_sentinel_reserved.1 1 (by norm_num) (le_refl 1),
   C2_sentinel_reserved.2 128 (by norm_num) (by norm_num)⟩

/-- C3, counterexample: at `v = -1256/1275` (target `1.9`) the encoder
writes byte 1 (`astype(np.uint8)` truncates) while the claimed formula
`round((v+1)/2*255)` gives 2. -/
theorem C3_formula_counterexample :
    (-1 ≤ (-1256/1275 : ℚ) ∧ (-1256/1275 : ℚ) ≤ 1) ∧
    quantizePixel (Flt.val (-1256/1275)) = 1 ∧
    round (((-1256/1275 : ℚ) + 1) / 2 * 255) = 2 := by
  refine ⟨⟨by norm_num, by norm_num⟩, ?_, ?_⟩
  · rw [quantize_valid_eq _ (by norm_num) (by norm_num)]
    norm_num
  · norm_num [round_eq]

/-- C3 (amended): for every pixel value `v` with `-1 ≤ v ≤ 1` and not
NaN the encoder writes output byte `⌊(v + 1) / 2 * 255⌋` (truncation,
not rounding) as an 8-bit unsigned value; for every other pixel (NaN or
out of range) it writes byte 0. -/
theorem C3_quantize_formula :
    (∀ v : ℚ, -1 ≤ v → v ≤ 1 → quantizePixel (Flt.val v) = (⌊(v + 1) / 2 * 255⌋).toNat) ∧
    (∀ v : ℚ, (v < -1 ∨ 1 < v) → quantizePixel (Flt.val v) = 0) ∧
    quantizePixel Flt.nan = 0 := by
  refine ⟨fun v h1 h2 => quantize_valid_eq v h1 h2, fun v h => ?_, rfl⟩
  simp only [quantizePixel]
  rw [if_neg]
  rintro ⟨ha, hb⟩
  rcases h with h | h <;> linarith

/-- Witness for `C3_quantize_formula` on both branches: `v = 1/2` (valid)
and `v = 2` (out of range). -/
theorem C3_quantize_formula_witness :
    quantizePixel (Flt.val (1/2)) = (⌊((1/2 : ℚ) + 1) / 2 * 255⌋).toNat ∧
    quantizePixel (Flt.val 2) = 0 :=
  ⟨C3_quantize_formula.1 (1/2) (by norm_num) (by norm_num),
   C3_quantize_formula.2.1 2 (Or.inr (by norm_num))⟩

/-- C5, counterexample: an integer-typed raster pixel with raw stored
value 0 is NOT unconditionally treated as no-data — when the raster
declares a different no-data value (here 5), line 111's guard does not
fire and byte 0 is dequantized to `0/255*2 - 1 = -1.0` and returned. -/
theorem C5_zero_sentinel_counterexample :
    extract_point_value
      { pathNonempty := true, fileExists := true, readError := false,
        row := 0, col := 0, height := 1, width := 1,
        nodata := some (Flt.val 5), dtypeInt := true,
        masked := false, raw := Flt.val 0 } = some (-1) := by
  norm_num [extract_point_value, matchesNodata, intSentinel, feq, Flt.isNan,
    fltDequant, outOfRange, Flt.toVal?]

/-- C5 (amended): for an integer-typed band, a raw stored value of 0
makes the extractor return `None` when the raster declares no no-data
value, or declares 0 itself as its no-data value; with any other
declared no-data value the byte 0 is dequantized and returned as -1.0
(per the source comment "treat 0 as nodata unless explicitly defined
otherwise"). -/
theorem C5_zero_sentinel (q : ExtractQuery)
    (hre : q.readError = false) (hp : q.pathNonempty = true) (hf : q.fileExists = true)
    (hin : 0 ≤ q.row ∧ q.row < q.height ∧ 0 ≤ q.col ∧ q.col < q.width)
    (hm : q.masked = false) (hdt : q.dtypeInt = true) (hraw : q.raw = Flt.val 0)
    (hnd : q.nodata = none ∨ q.nodata = some (Flt.val 0)) :
    extract_point_value q = none := by
  rcases hnd with h | h <;>
    simp [extract_point_value, h, hre, hp, hf, hm, hdt, hin, hraw,
      matchesNodata, intSentinel, feq, Flt.isNan]

/-- Witness for `C5_zero_sentinel`: a concrete in-bounds byte-0 query
against a raster with no declared no-data value. -/
theorem C5_zero_sentinel_witness :
    extract_point_value
      { pathNonempty := true, fileExists := true, readError := false,
        row := 0, col := 0, height := 1, width := 1,
        nodata := none, dtypeInt := true,
        masked := false, raw := Flt.val 0 } = none :=
  C5_zero_sentinel _ rfl rfl rfl
    (by norm_num) rfl rfl rfl (Or.inl rfl)

/-- C6: the extractor is a total function into `Option ℚ` (the Python
body is wrapped in `try/except ... return None`), and every query-miss
condition collapses to `None`: empty path, missing file, any open/read
error, out-of-bounds pixel, masked pixel, pixel equal to the declared
no-data value, or a dequantized value that is NaN or outside `[-1, 1]`. -/
theorem C6_query_miss_none (q : ExtractQuery)
    (h : q.pathNonempty = false ∨ q.fileExists = false ∨ q.readError = true ∨
         ¬ (0 ≤ q.row ∧ q.row < q.height ∧ 0 ≤ q.col ∧ q.col < q.width) ∨
         q.masked = true ∨
         (∃ x : ℚ, q.nodata = some (Flt.val x) ∧ q.raw = Flt.val x) ∨
         (dequantized q).isNan = true ∨
         (∃ x : ℚ, dequantized q = Flt.val x ∧ (x < -1 ∨ 1 < x))) :
    extract_point_value q = none := by
  by_cases h1 : q.readError = true
  · simp [extract_point_value, h1]
  by_cases h2 : q.pathNonempty = true
  swap
  · simp [extract_point_value, h1, h2]
  by_cases h3 : q.fileExists = true
  swap
  · simp [extract_point_value, h1, h2, h3]
  by_cases h4 : 0 ≤ q.row ∧ q.row < q.height ∧ 0 ≤ q.col ∧ q.col < q.width
  swap
  · simp [extract_point_value, h1, h2, h3, h4]
  by_cases h5 : q.masked = true
  · simp [extract_point_value, h1, h2, h3, h4, h5]
  by_cases h6 : matchesNodata q.nodata q.raw = true
  · simp [extract_point_value, h1, h2, h3, h4, h5, h6]
  have hoor : outOfRange (dequantized q) = true := by
    rcases h with h | h | h | h | h | ⟨x, hx1, hx2⟩ | h | ⟨x, hx1, hx2⟩
    · simp [h2] at h
    · simp [h3] at h
    · exact absurd h h1
    · exact absurd h4 h
    · exact absurd h h5
    · exact absurd (by simp [matchesNodata, hx1, hx2, feq, Flt.isNan]) h6
    · cases hdq : dequantized q with
      | nan => rfl
      | val v => rw [hdq] at h; exact absurd h (by simp [Flt.isNan])
    · rw [hx1]
      rcases hx2 with h | h <;> simp [outOfRange, h]
  by_cases h7 : q.dtypeInt = true
  · by_cases h8 : intSentinel q.nodata q.raw = true
    · simp [extract_point_value, h1, h2, h3, h4, h5, h6, h7, h8]
    · have hd : outOfRange (fltDequant q.raw) = true := by
        simpa [dequantized, h7] using hoor
      simp [extract_point_value, h1, h2, h3, h4, h5, h6, h7, h8, hd]
  · have hd : outOfRange q.raw = true := by
      simpa [dequantized, h7] using hoor
    simp [extract_point_value, h1, h2, h3, h4, h5, h6, h7, hd]

/-- Witness for `C6_query_miss_none`: a concrete query whose raster read
raises. -/
theorem C6_query_miss_none_witness :
    extract_point_value
      { pathNonempty := true, fileExists := true, readError := true,
        row := 0, col := 0, height := 1, width := 1,
        nodata := none, dtypeInt := true,
        masked := false, raw := Flt.val 10 } = none :=
  C6_query_miss_none _ (Or.inr (Or.inr (Or.inl rfl)))

/-- C4, code-bug demonstration: for a 1×1 uint8 raster with no declared
no-data value whose single pixel stores byte 0 unmasked, the statistics
sampler includes the pixel — dequantized to `-1.0` — in its returned
statistics (count 1, min = max = mean = -1), although its own comment
says "Treat zeros (or masked) as nodata"; `extract_point_value` on the
same pixel returns `None`. The sampled-pixel contribution therefore does
not agree with PointExtractor's rules. -/
theorem C4_sampler_extractor_divergence :
    get_map_statistics
      { fileExists := true, readError := false, height := 1, width := 1,
        dtypeInt := true, grid := [[(false, Flt.val 0)]] } =
      some { vmin := -1, vmax := -1, mean := -1, variance := 0,
             count := 1, sampled := true, sample_step := 1 } ∧
    extract_point_value
      { pathNonempty := true, fileExists := true, readError := false,
        row := 0, col := 0, height := 1, width := 1,
        nodata := none, dtypeInt := true, masked := false, raw := Flt.val 0 } = none := by
  constructor
  · norm_num [get_map_statistics, strideGrid, strideTake, fltDequant, Flt.toVal?,
      listMin, listMax, listMean, listVar, List.enum, List.enumFrom,
      List.filterMap_cons, List.filterMap_nil]
  · norm_num [extract_point_value, matchesNodata, intSentinel, feq, Flt.isNan,
      fltDequant, outOfRange, Flt.toVal?]

/-- C8: every source raster whose bounds rectangle fails the overlap
test against region (west 103.0, south 37.5, east 105.2, north 39.0) —
i.e. not (left < 105.2 ∧ right > 103.0 ∧ bottom < 39.0 ∧ top > 37.5) —
makes the encoder return success=False with no statistics, regardless of
the raster's pixel content. -/
theorem C8_bounds_rejection (inp : TiffInput)
    (h : ¬ (inp.bounds.left < requiredEast ∧ inp.bounds.right > requiredWest ∧
            inp.bounds.bottom < requiredNorth ∧ inp.bounds.top > requiredSouth)) :
    (process_tiff_to_web_tiles inp).success = false ∧
    (process_tiff_to_web_tiles inp).stats = none := by
  have hv : validate_geographic_bounds inp.bounds = false := by
    cases hcase : validate_geographic_bounds inp.bounds
    · rfl
    · exfalso
      apply h
      have hc := hcase
      simp only [validate_geographic_bounds, Bool.and_eq_true, decide_eq_true_eq] at hc
      tauto
  by_cases ho : inp.openError = true
  · simp [process_tiff_to_web_tiles, ho, encodeFail]
  · simp [process_tiff_to_web_tiles, ho, hv, encodeFail]

/-- Witness for `C8_bounds_rejection`: a unit square at the origin,
entirely outside the target region, despite a valid pixel. -/
theorem C8_bounds_rejection_witness :
    (process_tiff_to_web_tiles
      { openError := false, bounds := ⟨0, 0, 1, 1⟩,
        stemParts := [none, none, some 2020, some 5],
        grid := [[Flt.val (1/2)]], width := 1, height := 1 }).success = false ∧
    (process_tiff_to_web_tiles
      { openError := false, bounds := ⟨0, 0, 1, 1⟩,
        stemParts := [none, none, some 2020, some 5],
        grid := [[Flt.val (1/2)]], width := 1, height := 1 }).stats = none :=
  C8_bounds_rejection _
    (by norm_num [requiredEast, requiredWest, requiredNorth, requiredSouth])

/-- C9: every input file whose filename's 3rd underscore-delimited token
parses to a year strictly less than 2015 or strictly greater than 2024
makes the encoder return success=False and write neither a metadata
record nor a quantized raster, even if the file is otherwise valid. -/
theorem C9_temporal_rejection (inp : TiffInput) (y : ℤ)
    (hy : ((inp.stemParts.drop 2).take 2).head? = some (some y))
    (hr : y < 2015 ∨ 2024 < y) :
    (process_tiff_to_web_tiles inp).success = false ∧
    (process_tiff_to_web_tiles inp).stats = none ∧
    (process_tiff_to_web_tiles inp).metadataWritten = false ∧
    (process_tiff_to_web_tiles inp).rasterWritten = false := by
  have hfail : process_tiff_to_web_tiles inp = encodeFail := by
    by_cases ho : inp.openError = true
    · simp [process_tiff_to_web_tiles, ho]
    by_cases hv : validate_geographic_bounds inp.bounds = true
    swap
    · simp [process_tiff_to_web_tiles, ho, hv]
    rcases hl : ((inp.stemParts.drop 2).take 2 : List Tok) with _ | ⟨t, rest⟩
    · rw [hl] at hy; cases hy
    · rw [hl] at hy
      simp only [List.head?_cons, Option.some.injEq] at hy
      subst hy
      simp [process_tiff_to_web_tiles, ho, hv, hl, hr]
  rw [hfail]
  exact ⟨rfl, rfl, rfl, rfl⟩

/-- Witness for `C9_temporal_rejection`: the stem of
`tenggeli_ndvi_2014_05.tif` parses to year 2014 with overlapping bounds
and a valid pixel. -/
theorem C9_temporal_rejection_witness :
    (process_tiff_to_web_tiles
      { openError := false, bounds := ⟨103, 37, 106, 40⟩,
        stemParts := [none, none, some 2014, some 5],
        grid := [[Flt.val (1/2)]], width := 1, height := 1 }).success = false ∧
    (process_tiff_to_web_tiles
      { openError := false, bounds := ⟨103, 37, 106, 40⟩,
        stemParts := [none, none, some 2014, some 5],
        grid := [[Flt.val (1/2)]], width := 1, height := 1 }).stats = none ∧
    (process_tiff_to_web_tiles
      { openError := false, bounds := ⟨103, 37, 106, 40⟩,
        stemParts := [none, none, some 2014, some 5],
        grid := [[Flt.val (1/2)]], width := 1, height := 1 }).metadataWritten = false ∧
    (process_tiff_to_web_tiles
      { openError := false, bounds := ⟨103, 37, 106, 40⟩,
        stemParts := [none, none, some 2014, some 5],
        grid := [[Flt.val (1/2)]], width := 1, height := 1 }).rasterWritten = false :=
  C9_temporal_rejection _ 2014 rfl (Or.inl (by norm_num))

/-- C10, counterexample: a first call that finds no processed-data root
returns the empty sequence but skips the cache assignment (the early
`return files`), so a second call in the same process rescans the
changed filesystem and returns a different, non-cached result — the
claimed unconditional permanence fails. -/
theorem C10_cache_counterexample :
    get_available_files none { rootExists := false, dirs := [] } = ([], none) ∧
    (get_available_files
        (get_available_files none { rootExists := false, dirs := [] }).2
        { rootExists := true,
          dirs := [{ parts := [some 2020, some 1], isDir := true,
                     hasTif := true, hasMeta := false }] }).1
      = [((2020 : ℤ), (1 : ℤ), RPath.tif 2020 1)] := by
  constructor
  · rfl
  · rfl

/-- C10 (amended): a call that hits a populated cache returns it
unchanged; a first call that finds the processed root populates the
cache, so every subsequent call returns that identical sequence
regardless of filesystem changes; but a first call that finds no
processed root returns the empty sequence WITHOUT caching it, so a later
call rescans. -/
theorem C10_cache_permanence (l : List Entry) (fs fs2 : FileSys)
    (hroot : fs.rootExists = true) :
    get_available_files (some l) fs2 = (l, some l) ∧
    (get_available_files (get_available_files none fs).2 fs2).1
      = (get_available_files none fs).1 ∧
    (get_available_files none { rootExists := false, dirs := fs.dirs }).2 = none := by
  refine ⟨rfl, ?_, rfl⟩
  have h1 : get_available_files none fs =
      (sortEnts (fs.dirs.filterMap scanDir), some (sortEnts (fs.dirs.filterMap scanDir))) := by
    simp [get_available_files, hroot]
  rw [h1]
  rfl

/-- Witness for `C10_cache_permanence` at concrete states. -/
theorem C10_cache_permanence_witness :
    get_available_files (some [((2020 : ℤ), (1 : ℤ), RPath.empty)])
        { rootExists := false, dirs := [] }
      = ([((2020 : ℤ), (1 : ℤ), RPath.empty)], some [((2020 : ℤ), (1 : ℤ), RPath.empty)]) ∧
    (get_available_files
        (get_available_files none
          { rootExists := true,
            dirs := [{ parts := [some 2020, some 1], isDir := true,
                       hasTif := true, hasMeta := false }] }).2
        { rootExists := false, dirs := [] }).1
      = (get_available_files none
          { rootExists := true,
            dirs := [{ parts := [some 2020, some 1], isDir := true,
                       hasTif := true, hasMeta := false }] }).1 ∧
    (get_available_files none { rootExists := false, dirs := [] }).2 = none := by
  have h := C10_cache_permanence [((2020 : ℤ), (1 : ℤ), RPath.empty)]
    { rootExists := true,
      dirs := [{ parts := [some 2020, some 1], isDir := true,
                 hasTif := true, hasMeta := false }] }
    { rootExists := false, dirs := [] } rfl
  exact ⟨h.1, h.2.1, h.2.2⟩

/-- `filterMap` keeps exactly the elements on which `f` is `some`. -/
lemma length_filterMap_eq (f : α → Option β) : ∀ l : List α,
    (l.filterMap f).length = (l.filter (fun a => (f a).isSome)).length
  | [] => rfl
  | a :: l => by
    cases h : f a <;>
      simp [List.filterMap_cons, List.filter_cons, h, length_filterMap_eq f l]

/-- A left fold by `min` is either the seed or one of the elements. -/
lemma foldl_min_mem (xs : List ℚ) : ∀ a : ℚ, xs.foldl min a = a ∨ xs.foldl min a ∈ xs := by
  induction xs with
  | nil => intro a; exact Or.inl rfl
  | cons x xs ih =>
    intro a
    rcases ih (min a x) with h | h
    · rcases min_choice a x with hc | hc
      · exact Or.inl (by rw [List.foldl_cons, h, hc])
      · exact Or.inr (by rw [List.foldl_cons, h, hc]; exact List.mem_cons_self x xs)
    · exact Or.inr (List.mem_cons_of_mem x h)

/-- A left fold by `min` is a lower bound of the seed and the elements. -/
lemma foldl_min_le (xs : List ℚ) :
    ∀ a : ℚ, xs.foldl min a ≤ a ∧ ∀ x ∈ xs, xs.foldl min a ≤ x := by
  induction xs with
  | nil => exact fun a => ⟨le_refl a, fun x hx => absurd hx (List.not_mem_nil x)⟩
  | cons y ys ih =>
    intro a
    obtain ⟨h1, h2⟩ := ih (min a y)
    refine ⟨le_trans h1 (min_le_left a y), fun x hx => ?_⟩
    rcases List.mem_cons.mp hx with rfl | hx
    · exact le_trans h1 (min_le_right a x)
    · exact h2 x hx

/-- A left fold by `max` is either the seed or one of the elements. -/
lemma foldl_max_mem (xs : List ℚ) : ∀ a : ℚ, xs.foldl max a = a ∨ xs.foldl max a ∈ xs := by
  induction xs with
  | nil => intro a; exact Or.inl rfl
  | cons x xs ih =>
    intro a
    rcases ih (max a x) with h | h
    · rcases max_choice a x with hc | hc
      · exact Or.inl (by rw [List.foldl_cons, h, hc])
      · exact Or.inr (by rw [List.foldl_cons, h, hc]; exact List.mem_cons_self x xs)
    · exact Or.inr (List.mem_cons_of_mem x h)

/-- A left fold by `max` is an upper bound of the seed and the elements. -/
lemma foldl_max_ge (xs : List ℚ) :
    ∀ a : ℚ, a ≤ xs.foldl max a ∧ ∀ x ∈ xs, x ≤ xs.foldl max a := by
  induction xs with
  | nil => exact fun a => ⟨le_refl a, fun x hx => absurd hx (List.not_mem_nil x)⟩
  | cons y ys ih =>
    intro a
    obtain ⟨h1, h2⟩ := ih (max a y)
    refine ⟨le_trans (le_max_left a y) h1, fun x hx => ?_⟩
    rcases List.mem_cons.mp hx with rfl | hx
    · exact le_trans (le_max_right a x) h1
    · exact h2 x hx

/-- `listMin` of a nonempty list is attained. -/
lemma listMin_mem (x : ℚ) (xs : List ℚ) : listMin (x :: xs) ∈ x :: xs := by
  rcases foldl_min_mem xs x with h | h
  · rw [listMin, h]; exact List.mem_cons_self x xs
  · exact List.mem_cons_of_mem x (by rw [listMin]; exact h)

/-- `listMin` of a nonempty list is a lower bound. -/
lemma listMin_le (x : ℚ) (xs : List ℚ) : ∀ y ∈ x :: xs, listMin (x :: xs) ≤ y := by
  intro y hy
  obtain ⟨h1, h2⟩ := foldl_min_le xs x
  rcases List.mem_cons.mp hy with rfl | hy
  · exact h1
  · exact h2 y hy

/-- `listMax` of a nonempty list is attained. -/
lemma listMax_mem (x : ℚ) (xs : List ℚ) : listMax (x :: xs) ∈ x :: xs := by
  rcases foldl_max_mem xs x with h | h
  · rw [listMax, h]; exact List.mem_cons_self x xs
  · exact List.mem_cons_of_mem x (by rw [listMax]; exact h)

/-- `listMax` of a nonempty list is an upper bound. -/
lemma le_listMax (x : ℚ) (xs : List ℚ) : ∀ y ∈ x :: xs, y ≤ listMax (x :: xs) := by
  intro y hy
  obtain ⟨h1, h2⟩ := foldl_max_ge xs x
  rcases List.mem_cons.mp hy with rfl | hy
  · exact h1
  · exact h2 y hy

/-- C7: for every sorted catalog, extraction oracle and inclusive year
range, the time series emits one data point per in-range catalog entry
whose extraction is non-null (months yielding null are silently
omitted); every emitted point carries the extracted value of such an
entry; the sequence is ascending by (year, month); an empty emitted
sequence yields an empty statistics record; and a returned statistics
record has count equal to the number of emitted points, min/max that
bound and are attained by the emitted values, and mean·count equal to
their sum — i.e. statistics over exactly the emitted values. -/
theorem C7_time_series (files : List Entry) (ext : RPath → Option ℚ) (sy ey : ℤ)
    (pts : List DataPoint) (st : Option TsStats)
    (hsorted : files.Pairwise ymLe)
    (hout : get_time_series files ext sy ey = (pts, st)) :
    pts.length = ((files.filter (fun e => decide (sy ≤ e.1) && decide (e.1 ≤ ey))).filter
        (fun e => (ext e.2.2).isSome)).length ∧
    (∀ dp ∈ pts, ∃ p, (dp.year, dp.month, p) ∈ files ∧ sy ≤ dp.year ∧ dp.year ≤ ey ∧
        ext p = some dp.ndvi_value) ∧
    pts.Pairwise dpLe ∧
    (pts = [] → st = none) ∧
    (∀ s, st = some s →
      s.count = pts.length ∧
      (∀ dp ∈ pts, s.vmin ≤ dp.ndvi_value ∧ dp.ndvi_value ≤ s.vmax) ∧
      (∃ dp ∈ pts, dp.ndvi_value = s.vmin) ∧
      (∃ dp ∈ pts, dp.ndvi_value = s.vmax) ∧
      s.mean * s.count = (pts.map (fun dp => dp.ndvi_value)).sum) := by
  have hp : pts = ((files.filter (fun e => decide (sy ≤ e.1) && decide (e.1 ≤ ey))).filterMap
      (fun e => (ext e.2.2).map (fun v => DataPoint.mk e.1 e.2.1 v))) := by
    have h := congrArg Prod.fst hout
    simpa [get_time_series] using h.symm
  have hs : st = calculate_statistics pts := by
    have h2 := congrArg Prod.snd hout
    simp only [get_time_series] at h2
    rw [← h2, hp]
  subst hs
  refine ⟨?_, ?_, ?_, ?_, ?_⟩
  · rw [hp, length_filterMap_eq]
    congr 2
    funext e
    cases ext e.2.2 <;> rfl
  · intro dp hdp
    rw [hp] at hdp
    rcases List.mem_filterMap.mp hdp with ⟨e, he, hfe⟩
    rcases Option.map_eq_some'.mp hfe with ⟨v, hv, hmk⟩
    subst hmk
    rcases List.mem_filter.mp he with ⟨hef, hrange⟩
    simp only [Bool.and_eq_true, decide_eq_true_eq] at hrange
    exact ⟨e.2.2, by simpa using hef, hrange.1, hrange.2, hv⟩
  · rw [hp, List.pairwise_filterMap]
    have hfsorted := hsorted.sublist
      (List.filter_sublist (l := files) (p := fun e => decide (sy ≤ e.1) && decide (e.1 ≤ ey)))
    refine List.Pairwise.imp ?_ hfsorted
    intro a b hab x hx y hy
    rcases Option.map_eq_some'.mp (Option.mem_def.mp hx) with ⟨va, hva, hmka⟩
    rcases Option.map_eq_some'.mp (Option.mem_def.mp hy) with ⟨vb, hvb, hmkb⟩
    subst hmka
    subst hmkb
    exact hab
  · intro hnil
    rw [hnil]
    rfl
  · intro s hs2
    rcases hpts : pts with _ | ⟨x, xs⟩
    · subst hpts
      simp [calculate_statistics] at hs2
    · subst hpts
      have hsval : s = ⟨listMin ((x :: xs).map (fun dp => dp.ndvi_value)),
          listMax ((x :: xs).map (fun dp => dp.ndvi_value)),
          listMean ((x :: xs).map (fun dp => dp.ndvi_value)),
          ((x :: xs).map (fun dp => dp.ndvi_value)).length⟩ := by
        have h3 := hs2
        simp only [calculate_statistics, Option.some.injEq] at h3
        exact h3.symm
      subst hsval
      rw [List.map_cons]
      refine ⟨by simp, ?_, ?_, ?_, ?_⟩
      · intro dp hdp
        have hv : dp.ndvi_value ∈ x.ndvi_value :: xs.map (fun dp => dp.ndvi_value) := by
          rw [← List.map_cons]
          exact List.mem_map_of_mem _ hdp
        exact ⟨listMin_le _ _ _ hv, le_listMax _ _ _ hv⟩
      · have hm := listMin_mem x.ndvi_value (xs.map (fun dp => dp.ndvi_value))
        rw [← List.map_cons] at hm
        rcases List.mem_map.mp hm with ⟨dp, hdp, hfd⟩
        exact ⟨dp, hdp, hfd⟩
      · have hm := listMax_mem x.ndvi_value (xs.map (fun dp => dp.ndvi_value))
        rw [← List.map_cons] at hm
        rcases List.mem_map.mp hm with ⟨dp, hdp, hfd⟩
        exact ⟨dp, hdp, hfd⟩
      · have hlen : (((x.ndvi_value :: xs.map (fun dp => dp.ndvi_value)).length : ℕ) : ℚ) ≠ 0 := by
        -- length is a successor, hence nonzero
          simp
          exact Nat.cast_add_one_ne_zero xs.length
        rw [listMean, ← List.map_cons]
        exact div_mul_cancel₀ _ hlen

/-- Witness for `C7_time_series`: a catalog with months 2020-03 and
2020-05, where only 2020-03 extracts a value — exactly one data point is
emitted. -/
theorem C7_time_series_witness :
    [DataPoint.mk 2020 3 (1/2)].length =
      (([((2020 : ℤ), (3 : ℤ), RPath.tif 2020 3), ((2020 : ℤ), (5 : ℤ), RPath.tif 2020 5)].filter
          (fun e => decide ((2020 : ℤ) ≤ e.1) && decide (e.1 ≤ (2020 : ℤ)))).filter
        (fun e =>
          ((fun p => if p = RPath.tif 2020 3 then some ((1 : ℚ)/2) else none) e.2.2).isSome)).length :=
  (C7_time_series
    [((2020 : ℤ), (3 : ℤ), RPath.tif 2020 3), ((2020 : ℤ), (5 : ℤ), RPath.tif 2020 5)]
    (fun p => if p = RPath.tif 2020 3 then some ((1 : ℚ)/2) else none) 2020 2020
    [DataPoint.mk 2020 3 (1/2)]
    (calculate_statistics [DataPoint.mk 2020 3 (1/2)])
    (by norm_num [List.pairwise_cons, ymLe]) rfl).1

end Alxa
